import Mathlib

/-!
Verification of the MemoryMesh multi-provider AI orchestration layer
(`src/services/ai/AIProvider.ts`).

The definitions below are a shallow embedding of that file:

* `AIProvider`, `AICapability` embed the two string enums.
* `ContextExtractionResult` embeds the result interface (JS numbers
  modelled as `Int` for the integer `priority` and `ℚ` for `confidence`).
* `capabilityMap` / `selectProvider` embed `AIOrchestrator.selectProvider`.
* `setDedup` embeds the JavaScript `[...new Set(a ++ b)]` idiom
  (insertion-order, first occurrence kept).
* `fuseContextResults` embeds `AIOrchestrator.fuseContextResults`.
* `extractContext` embeds `AIOrchestrator.extractContext`, with the two
  settled provider outcomes passed in explicitly (fault injection): the
  source `Promise.allSettled` collects both outcomes independently and
  never cancels one call because the other failed.
* `transcribeAudio` embeds the dispatch switch of
  `AIOrchestrator.transcribeAudio`.
* `fenceCaptureAux` / `stripJsonFence` embed the regex
  match on a markdown code fence in `ClaudeAIProvider.extractContext`,
  and `claudeExtractPipeline` the strip-then-parse-then-return tail of
  that method, with the external `JSON.parse` builtin as a parameter.
-/

namespace MemoryMesh

/-- Embeds `enum AIProvider` (src lines 11-15). -/
inductive AIProvider where
  | CLAUDE
  | KIMI
  | OPENAI
deriving DecidableEq, Repr

/-- Embeds `enum AICapability` (src lines 17-26). -/
inductive AICapability where
  | TRANSCRIPTION
  | CONTEXT_EXTRACTION
  | SUMMARIZATION
  | SEARCH
  | TRANSLATION
  | CODE_ANALYSIS
  | CREATIVE
  | CONVERSATION
deriving DecidableEq, Repr

/-- The failure taxonomy of the orchestration layer (spec §7).  The source
throws plain `Error` values; the messages map onto these kinds
(`AllProvidersFailed` is the `'All AI providers failed to extract context'`
throw at src line 548). -/
inductive AIError where
  | ProviderUnavailable
  | MalformedResponse
  | AllProvidersFailed
  | UnsupportedCapability
deriving DecidableEq, Repr

/-- Embeds `interface ContextExtractionResult` (src lines 48-61).
JS numbers: `priority` is an integer 0-5 per the prompt contract, modelled
as `Int`; `confidence` is modelled as `ℚ`. -/
structure ContextExtractionResult where
  summary : String
  title : String
  tags : List String
  people : List String
  places : List String
  dates : List String
  tasks : List String
  emotions : List String
  priority : Int
  category : String
  sentiment : String
  confidence : ℚ
deriving DecidableEq, Repr

/-- Embeds the JavaScript `[...new Set(l)]` idiom used throughout
`fuseContextResults`: deduplicate keeping the first occurrence of each
element, preserving insertion order. -/
def setDedup (l : List String) : List String :=
  l.foldl (fun acc x => if x ∈ acc then acc else acc ++ [x]) []

/-- Embeds `AIOrchestrator.fuseContextResults` (src lines 557-588).
`none` plays the role of `null`.  The first two branches embed
`if (!claude) return openai!; if (!openai) return claude;` — when both are
null the source's `openai!` returns the null itself, hence the
`Option` result.  The `title` branch embeds `openai.title || claude.title`
(the empty string is falsy in JS). -/
def fuseContextResults (claude openai : Option ContextExtractionResult) :
    Option ContextExtractionResult :=
  match claude, openai with
  | none, _ => openai
  | some c, none => some c
  | some c, some o =>
      let allTags := setDedup (c.tags ++ o.tags)
      let allPeople := setDedup (c.people ++ o.people)
      let allPlaces := setDedup (c.places ++ o.places)
      some {
        summary := c.summary
        title := if o.title = "" then c.title else o.title
        tags := allTags.take 10
        people := allPeople
        places := allPlaces
        dates := setDedup (c.dates ++ o.dates)
        tasks := setDedup (c.tasks ++ o.tasks)
        emotions := setDedup (c.emotions ++ o.emotions)
        priority := max c.priority o.priority
        category := c.category
        sentiment := c.sentiment
        confidence := (c.confidence + o.confidence) / 2
      }

/-- Embeds the `capabilityMap` record literal inside
`AIOrchestrator.selectProvider` (src lines 496-505).  The TS type
`Record<AICapability, AIProvider>` forces an entry for every capability,
so the map is a total function. -/
def capabilityMap : AICapability → AIProvider
  | AICapability.TRANSCRIPTION => AIProvider.KIMI
  | AICapability.CONTEXT_EXTRACTION => AIProvider.CLAUDE
  | AICapability.SUMMARIZATION => AIProvider.CLAUDE
  | AICapability.SEARCH => AIProvider.KIMI
  | AICapability.TRANSLATION => AIProvider.KIMI
  | AICapability.CODE_ANALYSIS => AIProvider.KIMI
  | AICapability.CREATIVE => AIProvider.OPENAI
  | AICapability.CONVERSATION => AIProvider.OPENAI

/-- Embeds `AIOrchestrator.selectProvider` (src lines 493-508).
`preferredProvider` is the orchestrator field consulted by the
`capabilityMap[capability] || this.preferredProvider` fallback; since the
record is total (every enum value maps to a truthy non-empty string) the
fallback branch is dead and the table entry is always returned.
A supplied `userPreference` (always a truthy non-empty enum string)
unconditionally wins. -/
def selectProvider (preferredProvider : AIProvider) (capability : AICapability)
    (userPreference : Option AIProvider) : AIProvider :=
  match userPreference with
  | some p => p
  | none => capabilityMap capability

/-- Embeds `AIOrchestrator.extractContext` (src lines 529-552).  The two
provider calls are injected as their settled outcomes (`Except.ok` for a
fulfilled promise, `Except.error` for a rejected one): `Promise.allSettled`
records each outcome independently.  When `useEnsemble` is false only the
claude outcome is consulted (the source calls only
`this.claude.extractContext`). -/
def extractContext (claudeCall openaiCall : Except AIError ContextExtractionResult)
    (useEnsemble : Bool) : Except AIError ContextExtractionResult :=
  if useEnsemble = false then
    claudeCall
  else
    let claudeData := claudeCall.toOption
    let openaiData := openaiCall.toOption
    if claudeData.isNone && openaiData.isNone then
      Except.error AIError.AllProvidersFailed
    else
      match fuseContextResults claudeData openaiData with
      | some fused => Except.ok fused
      | none => Except.error AIError.AllProvidersFailed

/-- Which provider client method is invoked by the `transcribeAudio`
dispatch switch.  Neither branch of the switch ever calls a claude
operation (the claude client has no transcribe method, src lines 205-212). -/
inductive BackendCall where
  | kimiTranscribe
  | openaiTranscribe
deriving DecidableEq, Repr

/-- Embeds `AIOrchestrator.transcribeAudio` (src lines 513-524) at the
dispatch level: `provider || this.selectProvider(TRANSCRIPTION)`, then a
switch with cases KIMI and OPENAI and a default falling back to
`this.openai.transcribe` — the CLAUDE case lands in the default. -/
def transcribeAudio (preferredProvider : AIProvider)
    (provider : Option AIProvider) : BackendCall :=
  let selectedProvider :=
    provider.getD (selectProvider preferredProvider AICapability.TRANSCRIPTION none)
  match selectedProvider with
  | AIProvider.KIMI => BackendCall.kimiTranscribe
  | AIProvider.OPENAI => BackendCall.openaiTranscribe
  | AIProvider.CLAUDE => BackendCall.openaiTranscribe

/-- A JSON value, as produced by the external `JSON.parse` builtin. -/
inductive Json where
  | null
  | bool (b : Bool)
  | num (q : ℚ)
  | str (s : String)
  | arr (elems : List Json)
  | obj (fields : List (String × Json))

/-- Is the value a JSON string? -/
def isStringJson : Json → Bool
  | Json.str _ => true
  | _ => false

/-- Is the value a JSON number? -/
def isNumberJson : Json → Bool
  | Json.num _ => true
  | _ => false

/-- Is the value a JSON array of strings? -/
def isStringArrayJson : Json → Bool
  | Json.arr elems => elems.all isStringJson
  | _ => false

/-- Does the object field `k` exist and satisfy `p`? -/
def fieldIs (fields : List (String × Json)) (k : String) (p : Json → Bool) : Bool :=
  match fields.lookup k with
  | some v => p v
  | none => false

/-- Structural check of the `ContextExtractionResult` interface shape
(src lines 48-61): present required fields with the declared types. -/
def matchesContextShape : Json → Bool
  | Json.obj fields =>
      fieldIs fields "summary" isStringJson &&
      fieldIs fields "title" isStringJson &&
      fieldIs fields "tags" isStringArrayJson &&
      fieldIs fields "people" isStringArrayJson &&
      fieldIs fields "places" isStringArrayJson &&
      fieldIs fields "dates" isStringArrayJson &&
      fieldIs fields "tasks" isStringArrayJson &&
      fieldIs fields "emotions" isStringArrayJson &&
      fieldIs fields "priority" isNumberJson &&
      fieldIs fields "category" isStringJson &&
      fieldIs fields "sentiment"
        (fun v => match v with
          | Json.str s => s == "positive" || s == "negative" || s == "neutral"
          | _ => false) &&
      fieldIs fields "confidence" isNumberJson
  | _ => false

/-- Embeds the tail of `ClaudeAIProvider.extractContext` (src line 134):
once `JSON.parse` has succeeded, the parsed value is returned directly —
the source performs no structural validation against the
`ContextExtractionResult` interface before returning. -/
def claudeExtractFromJson (parsed : Json) : Except AIError Json :=
  Except.ok parsed

/-- Embeds the tail of `OpenAIProvider.extractContext` (src line 418):
`JSON.parse(response.choices[0].message.content || '{}')` is returned
directly, with no structural validation of the parsed value. -/
def openaiExtractFromJson (parsed : Json) : Except AIError Json :=
  Except.ok parsed

/-- The opening literal of the fence pattern `/```json\n([\s\S]+?)\n```/`. -/
def fenceOpen : List Char := "```json\n".data

/-- The closing literal of the fence pattern. -/
def fenceClose : List Char := "\n```".data

/-- Earliest index at which `pat` occurs in `l`
(`none` when it never occurs). -/
def findPat (pat : List Char) : List Char → Option Nat
  | [] => if pat.isEmpty then some 0 else none
  | c :: t =>
      if pat.isPrefixOf (c :: t) then some 0
      else (findPat pat t).map (fun n => n + 1)

/-- One attempt of the regex at a fixed start position: the opening
literal must match here, then the non-greedy `([\s\S]+?)` captures the
shortest non-empty run up to the earliest following closing literal. -/
def tryFenceAt (l : List Char) : Option (List Char) :=
  if fenceOpen.isPrefixOf l then
    match l.drop fenceOpen.length with
    | [] => none
    | r0 :: rt => (findPat fenceClose rt).map (fun j => r0 :: rt.take j)
  else none

/-- Leftmost-match semantics of
`text.match(/```json\n([\s\S]+?)\n```/)`: scan start positions left to
right, returning the first position where the whole pattern matches, and
its capture group. -/
def fenceCaptureAux : List Char → Option (List Char)
  | [] => none
  | c :: t => (tryFenceAt (c :: t)).orElse (fun _ => fenceCaptureAux t)

/-- Embeds src lines 127-132: if the fence regex matches, parsing proceeds
on the capture group `jsonMatch[1]`; otherwise on the original text. -/
def stripJsonFence (s : String) : String :=
  match fenceCaptureAux s.data with
  | some cap => String.mk cap
  | none => s

/-- Embeds `ClaudeAIProvider.extractContext` from the fence strip to the
return (src lines 127-134).  `parseJson` stands for the external
`JSON.parse` builtin: `none` models a thrown `SyntaxError`, surfaced as
the `MalformedResponse` failure kind; a successfully parsed value is
returned without further validation. -/
def claudeExtractPipeline (parseJson : String → Option Json)
    (responseText : String) : Except AIError Json :=
  match parseJson (stripJsonFence responseText) with
  | some j => Except.ok j
  | none => Except.error AIError.MalformedResponse

/-- Concrete extraction result used as the first (claude) fusion input in
witness checks; mirrors the scenario of spec §8. -/
def sampleA : ContextExtractionResult :=
  { summary := "S1", title := "T1", tags := ["a", "b"], people := ["X"],
    places := [], dates := [], tasks := [], emotions := [],
    priority := 2, category := "work", sentiment := "neutral",
    confidence := 4 / 5 }

/-- Concrete extraction result used as the second (openai) fusion input in
witness checks; its title is empty. -/
def sampleB : ContextExtractionResult :=
  { summary := "S2", title := "", tags := ["b", "c"], people := ["Y"],
    places := [], dates := [], tasks := [], emotions := [],
    priority := 4, category := "personal", sentiment := "positive",
    confidence := 3 / 5 }

/-- The fusion of `sampleA` and `sampleB`. -/
def fusedSample : ContextExtractionResult :=
  { summary := "S1", title := "T1", tags := ["a", "b", "c"],
    people := ["X", "Y"], places := [], dates := [], tasks := [],
    emotions := [], priority := 4, category := "work",
    sentiment := "neutral", confidence := 7 / 10 }

/-! ## Helper lemmas -/

theorem setDedup_foldl_nodup (l : List String) :
    ∀ acc : List String, acc.Nodup →
      (l.foldl (fun acc x => if x ∈ acc then acc else acc ++ [x]) acc).Nodup := by
  induction l with
  | nil => intro acc h; simpa using h
  | cons x t ih =>
      intro acc h
      simp only [List.foldl_cons]
      by_cases hx : x ∈ acc
      · simpa [hx] using ih acc h
      · have hnew : (acc ++ [x]).Nodup := by
          simp [List.nodup_append, h, hx]
        simpa [hx] using ih (acc ++ [x]) hnew

theorem setDedup_nodup (l : List String) : (setDedup l).Nodup :=
  setDedup_foldl_nodup l [] List.nodup_nil

theorem prefix_dropLast {pat l : List Char} (h : pat <+: l)
    (hlen : pat.length < l.length) : pat <+: l.dropLast := by
  rw [List.prefix_iff_eq_take] at h ⊢
  rw [List.dropLast_eq_take, List.take_take]
  have hmin : min pat.length (l.length - 1) = pat.length := by omega
  rw [hmin]
  exact h

theorem findPat_append_self (pat : List Char) (hp : pat ≠ []) :
    ∀ l : List Char, ¬ pat <:+: (l ++ pat).dropLast →
      findPat pat (l ++ pat) = some l.length := by
  intro l
  induction l with
  | nil =>
      intro _
      obtain ⟨c, t, rfl⟩ := List.exists_cons_of_ne_nil hp
      have hpre : (c :: t).isPrefixOf (c :: t) = true :=
        List.isPrefixOf_iff_prefix.mpr (List.prefix_refl _)
      simp [findPat, hpre]
  | cons c t ih =>
      intro h
      have hne : t ++ pat ≠ [] := by
        intro hcontra
        exact hp (List.append_eq_nil.mp hcontra).2
      have hdl : ((c :: t) ++ pat).dropLast = c :: (t ++ pat).dropLast := by
        rw [List.cons_append, List.dropLast_cons_of_ne_nil hne]
      have hnpfx : pat.isPrefixOf ((c :: t) ++ pat) = false := by
        rw [Bool.eq_false_iff]
        intro hpre
        apply h
        have hpre2 : pat <+: (c :: t) ++ pat :=
          List.isPrefixOf_iff_prefix.mp hpre
        have hlen : pat.length < ((c :: t) ++ pat).length := by
          simp [List.length_append, List.length_cons]
          omega
        exact (prefix_dropLast hpre2 hlen).isInfix
      have hih : ¬ pat <:+: (t ++ pat).dropLast := by
        intro hinf
        apply h
        rw [hdl]
        exact List.infix_cons hinf
      rw [List.cons_append] at hnpfx ⊢
      simp only [findPat, hnpfx, Bool.false_eq_true, if_false]
      rw [ih hih]
      simp [List.length_cons]

theorem fenceCaptureAux_no_open :
    ∀ l : List Char, ¬ fenceOpen <:+: l → fenceCaptureAux l = none := by
  intro l
  induction l with
  | nil => intro _; rfl
  | cons c t ih =>
      intro h
      have h1 : fenceOpen.isPrefixOf (c :: t) = false := by
        rw [Bool.eq_false_iff]
        intro hpre
        exact h (List.isPrefixOf_iff_prefix.mp hpre).isInfix
      have h2 : ¬ fenceOpen <:+: t := fun hinf => h (List.infix_cons hinf)
      simp only [fenceCaptureAux, tryFenceAt, h1, Bool.false_eq_true, if_false]
      simpa [Option.orElse] using ih h2

theorem fenceOpen_ne_nil : fenceOpen ≠ [] := by decide

theorem fenceClose_ne_nil : fenceClose ≠ [] := by decide

theorem fenceCaptureAux_fenced (P : List Char) (h0 : P ≠ [])
    (h1 : ¬ fenceClose <:+: (P ++ fenceClose).dropLast) :
    fenceCaptureAux (fenceOpen ++ (P ++ fenceClose)) = some P := by
  obtain ⟨p0, pt, rfl⟩ := List.exists_cons_of_ne_nil h0
  have htry : tryFenceAt (fenceOpen ++ ((p0 :: pt) ++ fenceClose)) =
      some (p0 :: pt) := by
    have hpre : fenceOpen.isPrefixOf
        (fenceOpen ++ ((p0 :: pt) ++ fenceClose)) = true :=
      List.isPrefixOf_iff_prefix.mpr (List.prefix_append _ _)
    have hclose_ne : pt ++ fenceClose ≠ [] := by
      intro hcontra
      exact fenceClose_ne_nil (List.append_eq_nil.mp hcontra).2
    have hpt : ¬ fenceClose <:+: (pt ++ fenceClose).dropLast := by
      intro hinf
      apply h1
      rw [List.cons_append, List.dropLast_cons_of_ne_nil hclose_ne]
      exact List.infix_cons hinf
    simp only [tryFenceAt, hpre, if_true, List.drop_left, List.cons_append]
    rw [findPat_append_self fenceClose fenceClose_ne_nil pt hpt]
    simp [List.take_left]
  cases hF : fenceOpen ++ ((p0 :: pt) ++ fenceClose) with
  | nil => exact absurd (List.append_eq_nil.mp hF).1 fenceOpen_ne_nil
  | cons c t =>
      have hcap : fenceCaptureAux (c :: t) =
          (tryFenceAt (c :: t)).orElse (fun _ => fenceCaptureAux t) := rfl
      rw [hcap, ← hF, htry]
      rfl

/-! ## Claims -/

/-- C1: in ensemble mode, the two settled provider outcomes are inspected
independently: two failures yield `AllProvidersFailed`; a single success
is returned unmodified (the fusion identity branch), so one call failing
never suppresses the other's success. -/
theorem extractContext_ensemble_outcomes :
    (∀ e1 e2 : AIError,
      MemoryMesh.extractContext (Except.error e1) (Except.error e2) true =
        Except.error AIError.AllProvidersFailed) ∧
    (∀ (r : ContextExtractionResult) (e : AIError),
      MemoryMesh.extractContext (Except.ok r) (Except.error e) true = Except.ok r) ∧
    (∀ (r : ContextExtractionResult) (e : AIError),
      MemoryMesh.extractContext (Except.error e) (Except.ok r) true = Except.ok r) :=
  ⟨fun _ _ => rfl, fun _ _ => rfl, fun _ _ => rfl⟩

/-- C2: when both inputs are present, the fused `tags` are the
first-occurrence deduplication of the first-then-second concatenation
truncated to 10 entries (hence duplicate-free with length at most 10),
while `people`, `places`, `dates`, `tasks` and `emotions` are the
untruncated deduplicated unions, each duplicate-free. -/
theorem fuseContextResults_list_fields (A B r : ContextExtractionResult)
    (h : fuseContextResults (some A) (some B) = some r) :
    r.tags = (setDedup (A.tags ++ B.tags)).take 10 ∧
    r.tags.Nodup ∧ r.tags.length ≤ 10 ∧
    r.people = setDedup (A.people ++ B.people) ∧ r.people.Nodup ∧
    r.places = setDedup (A.places ++ B.places) ∧ r.places.Nodup ∧
    r.dates = setDedup (A.dates ++ B.dates) ∧ r.dates.Nodup ∧
    r.tasks = setDedup (A.tasks ++ B.tasks) ∧ r.tasks.Nodup ∧
    r.emotions = setDedup (A.emotions ++ B.emotions) ∧ r.emotions.Nodup := by
  simp only [fuseContextResults] at h
  injection h with h
  subst h
  refine ⟨rfl, (setDedup_nodup _).sublist (List.take_sublist _ _),
    List.length_take_le _ _, rfl, setDedup_nodup _, rfl, setDedup_nodup _,
    rfl, setDedup_nodup _, rfl, setDedup_nodup _, rfl, setDedup_nodup _⟩

/-- C3: when both inputs are present, `summary`, `category` and
`sentiment` come verbatim from the first input, `title` is the second's
unless empty, `priority` is the maximum, and `confidence` the arithmetic
mean. -/
theorem fuseContextResults_scalar_fields (A B r : ContextExtractionResult)
    (h : fuseContextResults (some A) (some B) = some r) :
    r.summary = A.summary ∧ r.category = A.category ∧
    r.sentiment = A.sentiment ∧
    r.title = (if B.title = "" then A.title else B.title) ∧
    r.priority = max A.priority B.priority ∧
    r.confidence = (A.confidence + B.confidence) / 2 := by
  simp only [fuseContextResults] at h
  injection h with h
  subst h
  exact ⟨rfl, rfl, rfl, rfl, rfl, rfl⟩

/-- C4: fusion identity law — a lone non-null input is returned
unchanged, with no combining logic applied. -/
theorem fuseContextResults_identity (A B : ContextExtractionResult) :
    fuseContextResults (some A) none = some A ∧
    fuseContextResults none (some B) = some B :=
  ⟨rfl, rfl⟩

/-- C5: with no override, provider selection returns the routing-table
entry for every capability, deterministically and without failure. -/
theorem selectProvider_table (preferred : AIProvider) :
    selectProvider preferred AICapability.TRANSCRIPTION none = AIProvider.KIMI ∧
    selectProvider preferred AICapability.SEARCH none = AIProvider.KIMI ∧
    selectProvider preferred AICapability.TRANSLATION none = AIProvider.KIMI ∧
    selectProvider preferred AICapability.CODE_ANALYSIS none = AIProvider.KIMI ∧
    selectProvider preferred AICapability.CONTEXT_EXTRACTION none = AIProvider.CLAUDE ∧
    selectProvider preferred AICapability.SUMMARIZATION none = AIProvider.CLAUDE ∧
    selectProvider preferred AICapability.CREATIVE none = AIProvider.OPENAI ∧
    selectProvider preferred AICapability.CONVERSATION none = AIProvider.OPENAI :=
  ⟨rfl, rfl, rfl, rfl, rfl, rfl, rfl, rfl⟩

/-- C6: a supplied provider override wins for every capability,
regardless of the routing-table entry and of the preferred provider. -/
theorem selectProvider_override (preferred o : AIProvider) (c : AICapability) :
    selectProvider preferred c (some o) = o :=
  rfl

/-- C7: non-ensemble extraction returns the claude outcome directly
(ignoring the other provider entirely), so an injected single-provider
failure kind passes through verbatim and `AllProvidersFailed` is never
produced on this path. -/
theorem extractContext_nonEnsemble
    (o : Except AIError ContextExtractionResult) :
    (∀ c, MemoryMesh.extractContext c o false = c) ∧
    (MemoryMesh.extractContext (Except.error AIError.MalformedResponse) o false =
      Except.error AIError.MalformedResponse) ∧
    (MemoryMesh.extractContext (Except.error AIError.ProviderUnavailable) o false =
      Except.error AIError.ProviderUnavailable) ∧
    (MemoryMesh.extractContext (Except.error AIError.MalformedResponse) o false ≠
      Except.error AIError.AllProvidersFailed) ∧
    (MemoryMesh.extractContext (Except.error AIError.ProviderUnavailable) o false ≠
      Except.error AIError.AllProvidersFailed) :=
  ⟨fun _ => rfl, rfl, rfl, fun h => by injection h with h; exact absurd h (by decide),
    fun h => by injection h with h; exact absurd h (by decide)⟩

/-- C10: a transcription request with the claude override dispatches to
the OpenAI transcribe client through the switch's default branch — no
error is raised and no kimi (nor claude, which has no transcribe method)
call is made, for every preferred-provider state. -/
theorem transcribeAudio_claude_override (preferred : AIProvider) :
    transcribeAudio preferred (some AIProvider.CLAUDE) = BackendCall.openaiTranscribe ∧
    transcribeAudio preferred (some AIProvider.CLAUDE) ≠ BackendCall.kimiTranscribe ∧
    transcribeAudio preferred (some AIProvider.CLAUDE) =
      transcribeAudio preferred (some AIProvider.OPENAI) :=
  ⟨rfl, fun h => by injection h, rfl⟩

/-- Witness for C2 at the concrete inputs `sampleA`, `sampleB`. -/
theorem fuseContextResults_list_fields_witness :
    fuseContextResults (some sampleA) (some sampleB) = some fusedSample ∧
    (fusedSample.tags = (setDedup (sampleA.tags ++ sampleB.tags)).take 10 ∧
     fusedSample.tags.Nodup ∧ fusedSample.tags.length ≤ 10 ∧
     fusedSample.people = setDedup (sampleA.people ++ sampleB.people) ∧
     fusedSample.people.Nodup ∧
     fusedSample.places = setDedup (sampleA.places ++ sampleB.places) ∧
     fusedSample.places.Nodup ∧
     fusedSample.dates = setDedup (sampleA.dates ++ sampleB.dates) ∧
     fusedSample.dates.Nodup ∧
     fusedSample.tasks = setDedup (sampleA.tasks ++ sampleB.tasks) ∧
     fusedSample.tasks.Nodup ∧
     fusedSample.emotions = setDedup (sampleA.emotions ++ sampleB.emotions) ∧
     fusedSample.emotions.Nodup) :=
  ⟨by simp only [fuseContextResults, sampleA, sampleB, fusedSample, setDedup]
      norm_num
      decide,
   fuseContextResults_list_fields sampleA sampleB fusedSample
     (by simp only [fuseContextResults, sampleA, sampleB, fusedSample, setDedup]
         norm_num
         decide)⟩

/-- Witness for C3 at the concrete inputs `sampleA`, `sampleB`. -/
theorem fuseContextResults_scalar_fields_witness :
    fuseContextResults (some sampleA) (some sampleB) = some fusedSample ∧
    (fusedSample.summary = sampleA.summary ∧
     fusedSample.category = sampleA.category ∧
     fusedSample.sentiment = sampleA.sentiment ∧
     fusedSample.title = (if sampleB.title = "" then sampleA.title else sampleB.title) ∧
     fusedSample.priority = max sampleA.priority sampleB.priority ∧
     fusedSample.confidence = (sampleA.confidence + sampleB.confidence) / 2) :=
  ⟨by simp only [fuseContextResults, sampleA, sampleB, fusedSample, setDedup]
      norm_num
      decide,
   fuseContextResults_scalar_fields sampleA sampleB fusedSample
     (by simp only [fuseContextResults, sampleA, sampleB, fusedSample, setDedup]
         norm_num
         decide)⟩

/-- C9: a response consisting of a payload wrapped in a markdown code
fence is stripped to exactly the payload before structural parsing, so
the fenced response and the bare payload produce the same extraction
result for any behavior of the external `JSON.parse`.  The hypotheses
state that the payload is non-empty and contains no fence delimiter of
its own — true of well-formed JSON payload text, where a raw newline can
occur only as inter-token whitespace and a backtick only inside a string
literal. -/
theorem claude_fence_stripping (parseJson : String → Option Json) (P : String)
    (h0 : P.data ≠ [])
    (h1 : ¬ fenceClose <:+: (P.data ++ fenceClose).dropLast)
    (h2 : ¬ fenceOpen <:+: P.data) :
    stripJsonFence ("```json\n" ++ P ++ "\n```") = P ∧
    claudeExtractPipeline parseJson ("```json\n" ++ P ++ "\n```") =
      claudeExtractPipeline parseJson P := by
  have hdata : ("```json\n" ++ P ++ "\n```").data =
      fenceOpen ++ (P.data ++ fenceClose) := by
    show ("```json\n".data ++ P.data) ++ "\n```".data =
      fenceOpen ++ (P.data ++ fenceClose)
    rw [List.append_assoc]
    rfl
  have hstrip : stripJsonFence ("```json\n" ++ P ++ "\n```") = P := by
    unfold stripJsonFence
    rw [hdata, fenceCaptureAux_fenced P.data h0 h1]
  have hplain : stripJsonFence P = P := by
    unfold stripJsonFence
    rw [fenceCaptureAux_no_open P.data h2]
  refine ⟨hstrip, ?_⟩
  unfold claudeExtractPipeline
  rw [hstrip, hplain]

/-- Witness for C9 at the concrete payload `"[1, 2]"`. -/
theorem claude_fence_stripping_witness :
    ("[1, 2]" : String).data ≠ [] ∧
    ¬ fenceClose <:+: (("[1, 2]" : String).data ++ fenceClose).dropLast ∧
    ¬ fenceOpen <:+: ("[1, 2]" : String).data ∧
    (stripJsonFence ("```json\n" ++ "[1, 2]" ++ "\n```") = "[1, 2]" ∧
     claudeExtractPipeline (fun _ => none) ("```json\n" ++ "[1, 2]" ++ "\n```") =
       claudeExtractPipeline (fun _ => none) "[1, 2]") :=
  ⟨by decide, by decide, by decide,
    claude_fence_stripping (fun _ => none) "[1, 2]"
      (by decide) (by decide) (by decide)⟩

/-- C8 counterexample: the empty JSON object — a payload `JSON.parse`
accepts — fails the `ContextExtractionResult` shape check (every required
field is missing), yet both providers' extraction tails return it as a
success instead of failing with `MalformedResponse`. -/
theorem extract_shape_validation_cex :
    matchesContextShape (Json.obj []) = false ∧
    claudeExtractFromJson (Json.obj []) = Except.ok (Json.obj []) ∧
    claudeExtractFromJson (Json.obj []) ≠ Except.error AIError.MalformedResponse ∧
    openaiExtractFromJson (Json.obj []) = Except.ok (Json.obj []) ∧
    openaiExtractFromJson (Json.obj []) ≠ Except.error AIError.MalformedResponse :=
  ⟨rfl, rfl, fun h => by injection h, rfl, fun h => by injection h⟩

/-- C8 amended: provider-side extraction validates only JSON syntax — any
payload the external `JSON.parse` accepts is returned as a success
without structural validation, even when it fails the
`ContextExtractionResult` shape check; `MalformedResponse` arises only
from a `JSON.parse` failure. -/
theorem claudeExtractPipeline_no_shape_validation
    (parseJson : String → Option Json) (text : String) (j : Json)
    (hparse : parseJson (stripJsonFence text) = some j)
    (hshape : matchesContextShape j = false) :
    claudeExtractPipeline parseJson text = Except.ok j ∧
    claudeExtractPipeline parseJson text ≠
      Except.error AIError.MalformedResponse := by
  refine ⟨by simp [claudeExtractPipeline, hparse], ?_⟩
  simp [claudeExtractPipeline, hparse]

/-- Witness for the amended C8 theorem: a stub `JSON.parse` yielding the
empty object on the response text `"[1]"`. -/
theorem claudeExtractPipeline_no_shape_validation_witness :
    (fun _ : String => some (Json.obj [])) (stripJsonFence "[1]") =
      some (Json.obj []) ∧
    matchesContextShape (Json.obj []) = false ∧
    (claudeExtractPipeline (fun _ => some (Json.obj [])) "[1]" =
      Except.ok (Json.obj []) ∧
     claudeExtractPipeline (fun _ => some (Json.obj [])) "[1]" ≠
      Except.error AIError.MalformedResponse) :=
  ⟨rfl, rfl,
    claudeExtractPipeline_no_shape_validation (fun _ => some (Json.obj []))
      "[1]" (Json.obj []) rfl rfl⟩

end MemoryMesh
